import Mathlib

/-!
Verification development for the AutomationInvest statement parsers.

The Python scripts extract transaction tables from PDF statement text.
PDF text extraction itself is external; every function below consumes the
already-joined document text (pages joined with a newline), exactly as the
scripts do after `"\n".join(page.extract_text() ...)`.

Regular expressions from the source are embedded as deterministic character
matchers.  Each matcher mirrors the backtracking behaviour of the concrete
pattern it embeds (greedy whitespace runs followed by disjoint character
classes never backtrack; optional groups are tried greedily first).
-/

/-- Whitespace test matching Python's `\s` / `str.isspace` on the ASCII
range used by these documents. -/
def wsC (c : Char) : Bool :=
  c = ' ' || c = '\t' || c = '\n' || c = '\r' || c = '\x0b' || c = '\x0c'

def isUpperAZ (c : Char) : Bool := 'A' ≤ c && c ≤ 'Z'

/-- Word character for Python's `\b` / `\w` (ASCII range). -/
def isWordC (c : Char) : Bool := c.isAlphanum || c = '_'

/-- Case-insensitive literal match: consume `pat` from the front of `s`. -/
def litCI : List Char → List Char → Option (List Char)
  | [], s => some s
  | _ :: _, [] => none
  | p :: ps, c :: cs => if p.toLower = c.toLower then litCI ps cs else none

def litCIs (pat : String) (s : List Char) : Option (List Char) :=
  litCI pat.data s

/-- Consume `\s*`. -/
def wsStarL (s : List Char) : List Char := s.dropWhile wsC

/-- Consume `\s+` (at least one whitespace character). -/
def wsPlusL : List Char → Option (List Char)
  | [] => none
  | c :: cs => if wsC c then some (cs.dropWhile wsC) else none

/-- Trim whitespace from both ends (Python `str.strip`). -/
def trimList (l : List Char) : List Char :=
  ((l.dropWhile wsC).reverse.dropWhile wsC).reverse

def pyStrip (s : String) : String := String.mk (trimList s.data)

def upperS (s : String) : String := String.mk (s.data.map Char.toUpper)

def lowerS (s : String) : String := String.mk (s.data.map Char.toLower)

/-- Remove all whitespace (the scripts' `_compact` helper / `re.sub(r"\s+", "", s)`). -/
def compactS (s : String) : String := String.mk (s.data.filter (fun c => !wsC c))

/-- Substring containment (Python `in`). -/
def containsL (n : List Char) : List Char → Bool
  | [] => n.isEmpty
  | h :: t => n.isPrefixOf (h :: t) || containsL n t

def containsS (needle hay : String) : Bool := containsL needle.data hay.data

/-- Index of the first occurrence of a sublist (Python `str.find`,
`none` standing for `-1`). -/
def findSubIdx (n : List Char) : List Char → Option Nat
  | [] => if n.isEmpty then some 0 else none
  | h :: t => if n.isPrefixOf (h :: t) then some 0 else (findSubIdx n t).map (· + 1)

def pyStartsWith (pre s : String) : Bool := pre.data.isPrefixOf s.data

def pyEndsWith (suf s : String) : Bool := suf.data.isSuffixOf s.data

/-- Split on a single separator character (Python `str.split(sep)`). -/
def splitOnC (sep : Char) : List Char → List String
  | [] => [""]
  | c :: t =>
    let rest := splitOnC sep t
    if c = sep then "" :: rest
    else
      match rest with
      | [] => [String.mk [c]]
      | h :: t2 => String.mk (c :: h.data) :: t2

/-- Python `str.splitlines` on newline-joined page text. -/
def pySplitlines (s : String) : List String :=
  if s = "" then []
  else
    let parts := splitOnC '\n' s.data
    match parts.getLast? with
    | some last => if last = "" then parts.dropLast else parts
    | none => parts

/-- Collapse every whitespace run to a single space (`re.sub(r"\s+", " ", s)`);
the boolean records whether the previous character was whitespace. -/
def collapseAux : Bool → List Char → List Char
  | _, [] => []
  | prevWs, c :: t =>
    if wsC c then
      if prevWs then collapseAux true t else ' ' :: collapseAux true t
    else c :: collapseAux false t

def collapseWsStrip (s : String) : String :=
  pyStrip (String.mk (collapseAux false s.data))

def joinSpace (parts : List String) : String := String.intercalate " " parts

def take2d : List Char → Option (List Char × List Char)
  | a :: b :: r => if a.isDigit && b.isDigit then some ([a, b], r) else none
  | _ => none

def take3U : List Char → Option (List Char × List Char)
  | a :: b :: c :: r =>
      if isUpperAZ a && isUpperAZ b && isUpperAZ c then some ([a, b, c], r) else none
  | _ => none

def wsSplit (l : List Char) : List Char × List Char :=
  (l.takeWhile wsC, l.dropWhile wsC)

/-- Consume `(?:,\d{3})*` with the fuel bounding the recursion depth;
returns the consumed characters and the rest.  A comma is only consumed
when followed by a maximal run of exactly three digits, which is what the
backtracking regex accepts. -/
def commaGroupsF : Nat → List Char → List Char × List Char
  | 0, l => ([], l)
  | fuel + 1, ',' :: rest =>
    let ds := rest.takeWhile Char.isDigit
    let r2 := rest.dropWhile Char.isDigit
    if ds.length = 3 then
      let (gs, r3) := commaGroupsF fuel r2
      (',' :: (ds ++ gs), r3)
    else ([], ',' :: rest)
  | _ + 1, l => ([], l)

/-- Full match of `\d{1,3}(?:,\d{3})*\.\d{2}\s*(CR|DR)?` (case-insensitive,
anchored at both ends of `l`).  Returns the numeric capture and the optional
suffix capture exactly as `re` would. -/
def amtFullMatch (l : List Char) : Option (String × Option String) :=
  let d1 := l.takeWhile Char.isDigit
  let r1 := l.dropWhile Char.isDigit
  if d1.length = 0 || 3 < d1.length then none
  else
    let (gs, r2) := commaGroupsF r1.length r1
    match r2 with
    | '.' :: r3 =>
      let d2 := r3.takeWhile Char.isDigit
      let r4 := r3.dropWhile Char.isDigit
      if d2.length = 2 then
        match wsStarL r4 with
        | [] => some (String.mk (d1 ++ gs ++ '.' :: d2), none)
        | [a, b] =>
          if (a.toLower = 'c' || a.toLower = 'd') && b.toLower = 'r' then
            some (String.mk (d1 ++ gs ++ '.' :: d2), some (String.mk [a, b]))
          else none
        | _ => none
      else none
    | _ => none

namespace UOB

/-! Embedding of `02-Automate-UOB-Credit-Statements.py`. -/

def start_marker : String :=
  "Post Trans Description of Transaction Transaction Amount"

def end_marker : String := "SUB TOTAL"

/-- Tail of `START_MARKER_RE` after the optional second `Date`:
`Description\s*of\s*Transaction\s*Transaction\s*Amount`. -/
def startM3 (s : List Char) : Option (List Char) :=
  (litCIs "description" s).bind fun s1 =>
  (litCIs "of" (wsStarL s1)).bind fun s2 =>
  (litCIs "transaction" (wsStarL s2)).bind fun s3 =>
  (litCIs "transaction" (wsStarL s3)).bind fun s4 =>
  litCIs "amount" (wsStarL s4)

/-- `Trans\s*(?:Date\s*)?` followed by `startM3`; the optional group is
tried greedily, falling back to the skipped alternative. -/
def startM2 (s : List Char) : Option (List Char) :=
  (litCIs "trans" s).bind fun s1 =>
    let s2 := wsStarL s1
    match litCIs "date" s2 with
    | some s3 => (startM3 (wsStarL s3)).orElse (fun _ => startM3 s2)
    | none => startM3 s2

/-- Does `START_MARKER_RE` match at the beginning of `s`? -/
def startMatchAt (s : List Char) : Bool :=
  ((litCIs "post" s).bind fun s1 =>
    let s2 := wsStarL s1
    match litCIs "date" s2 with
    | some s3 => (startM2 (wsStarL s3)).orElse (fun _ => startM2 s2)
    | none => startM2 s2).isSome

def startSearchAux : List Char → Nat → Option Nat
  | [], _ => none
  | l@(_ :: t), i => if startMatchAt l then some i else startSearchAux t (i + 1)

/-- `START_MARKER_RE.search`, returning the match start offset. -/
def start_search (s : String) : Option Nat := startSearchAux s.data 0

def start_search_b (s : String) : Bool := (start_search s).isSome

/-- Length consumed by `END_MARKER_RE` (`SUB\s*TOTAL`) at the front of `l`. -/
def endMatchLen (l : List Char) : Option Nat :=
  ((litCIs "sub" l).bind fun s => litCIs "total" (wsStarL s)).map
    (fun rem => l.length - rem.length)

def endSearchAux : List Char → Nat → Option (Nat × Nat)
  | [], _ => none
  | l@(_ :: t), i =>
    match endMatchLen l with
    | some k => some (i, k)
    | none => endSearchAux t (i + 1)

/-- `END_MARKER_RE.search`, returning match start and length. -/
def end_search (s : String) : Option (Nat × Nat) := endSearchAux s.data 0

def end_search_b (s : String) : Bool := (end_search s).isSome

/-- Second (and therefore effective) definition of `extract_section_text`:
regex search for the header, then cut to the end of the first `SUB TOTAL`
after it.  `none` models the `[SKIP] ... marker not found` early return. -/
def extract_section_text (text : String) : Option String :=
  match start_search text with
  | none => none
  | some i =>
    let after := String.mk (text.data.drop i)
    match end_search after with
    | none => none
    | some (j, len) => some (String.mk (after.data.take (j + len)))

/-- First (shadowed) definition of `extract_section_text`, including the
whitespace-compacted fallback scan and the compact-to-raw index mapping. -/
def extract_section_text_v1 (text : String) : Option String :=
  let tail := fun (after : String) =>
    match end_search after with
    | none => none
    | some (j, len) => some (String.mk (after.data.take (j + len)))
  match start_search text with
  | some i => tail (String.mk (text.data.drop i))
  | none =>
    let compactText := compactS text
    let compactStart := compactS start_marker
    let idx0 := findSubIdx compactStart.data compactText.data
    let idx :=
      match idx0 with
      | some i => some i
      | none =>
        findSubIdx (lowerS (compactS "PostTransDescriptionofTransactionTransactionAmount")).data
          (lowerS compactText).data
    match idx with
    | none => none
    | some i =>
      let rawIdxTable := (text.data.enum.filter (fun p => !wsC p.2)).map (·.1)
      let startRaw := rawIdxTable.getD i 0
      tail (String.mk (text.data.drop startRaw))

/-- Match of `^PAGE\s+\d+\s+OF\s+\d+` (a prefix match, as `re.match`). -/
def pageMatch (l : List Char) : Bool :=
  ((litCIs "page" l).bind fun s1 =>
   (wsPlusL s1).bind fun s2 =>
   (match s2.takeWhile Char.isDigit with
    | [] => none
    | _ :: _ => some (s2.dropWhile Char.isDigit)).bind fun s3 =>
   (wsPlusL s3).bind fun s4 =>
   (litCIs "of" s4).bind fun s5 =>
   (wsPlusL s5).bind fun s6 =>
   match s6.takeWhile Char.isDigit with
   | [] => none
   | _ :: _ => some ()).isSome

def pan4 : List Char → Option (List Char)
  | a :: b :: c :: d :: rest =>
    if a.isDigit && b.isDigit && c.isDigit && d.isDigit then some rest else none
  | _ => none

def panDash : List Char → Option (List Char)
  | '-' :: rest => some rest
  | _ => none

/-- Match of `\d{4}-\d{4}-\d{4}-\d{4}\b` at the front of `l`
(the leading `\b` is checked by the caller). -/
def panAt (l : List Char) : Bool :=
  ((pan4 l).bind fun r1 =>
   (panDash r1).bind fun r2 =>
   (pan4 r2).bind fun r3 =>
   (panDash r3).bind fun r4 =>
   (pan4 r4).bind fun r5 =>
   (panDash r5).bind fun r6 =>
   (pan4 r6).bind fun r7 =>
   match r7 with
   | [] => some ()
   | c :: _ => if isWordC c then none else some ()).isSome

/-- Search for the masked-PAN pattern, tracking the previous character for
the leading word boundary. -/
def panSearch : Option Char → List Char → Bool
  | _, [] => false
  | prev, l@(c :: t) =>
    ((match prev with
      | none => true
      | some p => !isWordC p) && panAt l) || panSearch (some c) t

/-- Full match of `DATE\s+DATE\s+SGD`. -/
def dateDateSgd (l : List Char) : Bool :=
  ((litCIs "date" l).bind fun s1 =>
   (wsPlusL s1).bind fun s2 =>
   (litCIs "date" s2).bind fun s3 =>
   (wsPlusL s3).bind fun s4 =>
   (litCIs "sgd" s4).bind fun s5 =>
   match s5 with
   | [] => some ()
   | _ => none).isSome

/-- `is_redundant_line` with its rules in source order. -/
def is_redundant_line (line : String) : Bool :=
  let s := pyStrip line
  if s = "" then true
  else
    let sU := upperS s
    let sCompact := upperS (compactS s)
    if start_search_b s || end_search_b s then true
    else if s = start_marker || s = end_marker || s = "Date Date SGD" then true
    else if pyStartsWith "PREVIOUS BALANCE" sU then true
    else if containsS "PLEASE" sU && containsS "BOUND" sU && containsS "DUTY" sU then true
    else if containsS "PLEASENOTETHATYOUAREBOUNDBYADUTY" sCompact then true
    else if containsS "UNAUTHORISEDDEBITS" sCompact || containsS "CONCLUSIVELYBINDING" sCompact then true
    else if containsS "CLAIMAGAINSTTHEBANK" sCompact then true
    else if containsS "UNITED OVERSEAS BANK LIMITED" sU then true
    else if containsS "UOB PLAZA" sU || containsS "WWW.UOB.COM.SG" sU then true
    else if pageMatch sU.data then true
    else if pyStartsWith "UOB ONE CARD" sU then true
    else if containsS "(CONTINUED)" sU then true
    else if panSearch none s.data then true
    else if dateDateSgd sU.data then true
    else if sCompact = "DATEDATESGD" then true
    else false

def cleanLinesAux : List String → List String
  | [] => []
  | ln :: rest =>
    if is_redundant_line ln then cleanLinesAux rest
    else if start_search_b ln then cleanLinesAux rest
    else if end_search_b ln then []
    else ln :: cleanLinesAux rest

/-- `clean_lines`: strip every line, drop noise, stop at the end marker. -/
def clean_lines (sec : String) : List String :=
  cleanLinesAux ((pySplitlines sec).map pyStrip)

/-- Match of `TX_START_RE`
(`^(?P<post>\d{2}\s+[A-Z]{3})\s+(?P<trans>\d{2}\s+[A-Z]{3})\s+(?P<rest>.+)$`),
returning the three captures. -/
def tx_start_match (s : String) : Option (String × String × String) := do
  let (d1, r1) ← take2d s.data
  let (w1, r2) := wsSplit r1
  guard (w1 ≠ [])
  let (a1, r3) ← take3U r2
  let (w2, r4) := wsSplit r3
  guard (w2 ≠ [])
  let (d2, r5) ← take2d r4
  let (w3, r6) := wsSplit r5
  guard (w3 ≠ [])
  let (a2, r7) ← take3U r6
  let (w4, r8) := wsSplit r7
  guard (w4 ≠ [])
  let post := String.mk (d1 ++ w1 ++ a1)
  let trans := String.mk (d2 ++ w3 ++ a2)
  if r8 ≠ [] then
    pure (post, trans, String.mk r8)
  else if 2 ≤ w4.length then
    pure (post, trans, String.mk (w4.drop (w4.length - 1)))
  else none

/-- `AMT_AT_END_RE.search`: leftmost suffix of the line that fully matches
the amount pattern; returns the match start and the two captures. -/
def amtAtEndAux : List Char → Nat → Option (Nat × String × Option String)
  | [], _ => none
  | l@(_ :: t), i =>
    match amtFullMatch l with
    | some (n, suf) => some (i, n, suf)
    | none => amtAtEndAux t (i + 1)

def amt_at_end (s : String) : Option (Nat × String × Option String) :=
  amtAtEndAux s.data 0

/-- `AMT_ONLY_RE.match` anchored at both ends. -/
def amt_only (s : String) : Option (String × Option String) := amtFullMatch s.data

/-- `normalize_amount`: strip thousands separators, parenthesize `CR`,
keep `DR` verbatim. -/
def normalize_amount (num : String) (suffix : Option String) : String :=
  let n := pyStrip (String.mk (num.data.filter (fun c => c ≠ ',')))
  let suf := upperS (pyStrip (suffix.getD ""))
  if suf = "CR" then String.mk ('(' :: n.data ++ [')'])
  else if suf = "" then n
  else String.mk (n.data ++ suf.data)

/-- Step 1 of `parse_tx_from_buffer`: split an amount off the end of the
first fragment only when some description text precedes it. -/
def first_fragment_step (first : String) : Option String × List String :=
  match amt_at_end first with
  | some (i, num, suf) =>
    let before := pyStrip (String.mk (first.data.take i))
    if before ≠ "" then (some (normalize_amount num suf), [before])
    else (none, [first])
  | none => (none, [first])

def cont_skip (s : String) : Bool := s == "" || is_redundant_line s

/-- Step 2 of `parse_tx_from_buffer`: a continuation line. -/
def cont_step : Option String × List String → String → Option String × List String
  | (amt, ds), cont =>
    let s := pyStrip cont
    if cont_skip s then (amt, ds)
    else
      match amt with
      | none =>
        match amt_only s with
        | some (n, suf) => (some (normalize_amount n suf), ds)
        | none => (none, ds ++ [s])
      | some a => (some a, ds ++ [s])

/-- Stripped continuation lines that survive the skip test. -/
def cont_keep (ls : List String) : List String :=
  (ls.map pyStrip).filter (fun s => !cont_skip s)

structure UobTx where
  transDate : String
  desc : String
  amount : String
deriving DecidableEq, Repr

/-- `parse_tx_from_buffer`; `none` models the `amount is None` discard. -/
def parse_tx_from_buffer (post trans : String) (buffer : List String) : Option UobTx :=
  match post, buffer with
  | _, [] => none
  | _, first :: rest =>
    match rest.foldl cont_step (first_fragment_step (pyStrip first)) with
    | (none, _) => none
    | (some a, ds) => some ⟨pyStrip trans, collapseWsStrip (joinSpace ds), a⟩

structure StitchState where
  rows : List UobTx
  cur : Option (String × String × List String)

/-- The driver's `flush`. -/
def flush_state (st : StitchState) : List UobTx :=
  match st.cur with
  | none => st.rows
  | some (p, t, buf) =>
    if p ≠ "" ∧ t ≠ "" ∧ buf ≠ [] then
      match parse_tx_from_buffer p t buf with
      | some rec => st.rows ++ [rec]
      | none => st.rows
    else st.rows

/-- One iteration of the driver's stitch loop. -/
def stitch_step (st : StitchState) (ln0 : String) : StitchState :=
  let ln := pyStrip ln0
  match tx_start_match ln with
  | some (p, t, r) => ⟨flush_state st, some (p, t, [pyStrip r])⟩
  | none =>
    match st.cur with
    | some (p, t, buf) => ⟨st.rows, some (p, t, buf ++ [ln])⟩
    | none => st

/-- Record stitching over a cleaned line list, with the final flush. -/
def uob_stitch (lines : List String) : List UobTx :=
  flush_state (lines.foldl stitch_step ⟨[], none⟩)

/-- `extract_rows_from_pdf` on the joined document text. -/
def extract_rows_from_text (text : String) : List UobTx :=
  match extract_section_text text with
  | none => []
  | some sec => if sec = "" then [] else uob_stitch (clean_lines sec)

end UOB

namespace Amex

/-! Embedding of `03-Automate-AMEX-Credit-Statements.py`. -/

def end_marker : String := "Total of New Transactions"

/-- Length consumed by `start_marker_re`
(`Details\s+Foreign\s+Spending\s+Amount\s*S\$`, case-insensitive) at the
front of `l`. -/
def start_match_len (l : List Char) : Option Nat :=
  ((litCIs "details" l).bind fun s1 =>
   (wsPlusL s1).bind fun s2 =>
   (litCIs "foreign" s2).bind fun s3 =>
   (wsPlusL s3).bind fun s4 =>
   (litCIs "spending" s4).bind fun s5 =>
   (wsPlusL s5).bind fun s6 =>
   (litCIs "amount" s6).bind fun s7 =>
   litCIs "s$" (wsStarL s7)).map (fun rem => l.length - rem.length)

/-- First start-marker match in `l`, returning the text after the match. -/
def findStartRest : List Char → Option (List Char)
  | [] => none
  | l@(_ :: t) =>
    match start_match_len l with
    | some k => some (l.drop k)
    | none => findStartRest t

def start_search_b (s : String) : Bool := (findStartRest s.data).isSome

def replaceNbsp (text : String) : List Char :=
  text.data.map (fun c => if c = '\xa0' then ' ' else c)

/-- Number of non-overlapping `start_marker_re` matches (`re.finditer`). -/
def occAux : Nat → List Char → Nat
  | 0, _ => 0
  | fuel + 1, l =>
    match findStartRest l with
    | some rest => occAux fuel rest + 1
    | none => 0

def start_occurrences (text : String) : Nat :=
  occAux text.data.length (replaceNbsp text)

/-- The lookahead `(?=(?:start_marker_re)|end_marker)`. -/
def lookSat (l : List Char) : Bool :=
  (start_match_len l).isSome || (litCIs end_marker l).isSome

/-- Offset of the first position in `l` satisfying the lookahead. -/
def lookScan : List Char → Option Nat
  | [] => none
  | l@(_ :: t) => if lookSat l then some 0 else (lookScan t).map (· + 1)

/-- Leftmost full match of the segment regex: a start-marker match whose
lazy body extends to the first later start-or-end position.  Returns the
captured body and the rest of the text from the lookahead position. -/
def findFull : List Char → Option (List Char × List Char)
  | [] => none
  | l@(_ :: t) =>
    match start_match_len l with
    | some k =>
      let body := l.drop k
      match lookScan body with
      | some j => some (body.take j, body.drop j)
      | none => findFull t
    | none => findFull t

def segsF : Nat → List Char → List (List Char)
  | 0, _ => []
  | fuel + 1, l =>
    match findFull l with
    | none => []
    | some (seg, rest) => seg :: segsF fuel rest

/-- `extract_marker_segments`: every `start ... (?=next-start-or-end)`
segment, after normalizing non-breaking spaces. -/
def extract_marker_segments (text : String) : List String :=
  let t := replaceNbsp text
  (segsF t.length t).map String.mk

def redundant_substrings : List String :=
  ["American Express International", "UEN", "Statement of Account",
   "Prepared for Membership Number", "Membership Number", "PAYMENT ADVICE",
   "Please return", "Minimum Payment", "Due by", "Enter amount enclosed",
   "Please make crossed cheque payable", "AMERICAN EXPRESS",
   "Please do not write", "The Rewards Card", "Page ", "Important Information",
   "Foreign Currency Charges", "Online Services", "Payment Method", "Privacy:",
   "Limited Liability", "Credit Card Interest Rate Policy",
   "log on to americanexpress.com.sg", "amex.co/", "reply envelope"]

/-- `is_redundant_line` of the AMEX script. -/
def is_redundant_line (line : String) : Bool :=
  let s := pyStrip line
  if s = "" then true
  else if s = end_marker || start_search_b s then true
  else redundant_substrings.any (fun sub => containsS (lowerS sub) (lowerS s))

def keep_line (s : String) : Bool := !(s == "") && !is_redundant_line s

/-- Stripped lines of every segment, concatenated in order. -/
def seg_lines : List String → List String
  | [] => []
  | s :: rest => (pySplitlines s).map pyStrip ++ seg_lines rest

/-- The driver's clean-line construction over a list of segments. -/
def clean_of (segs : List String) : List String :=
  (seg_lines segs).filter keep_line

/-- `DATE_DDMMYY_DOTS_RE.match`: `^\d{2}\.\d{2}\.\d{2}\b`. -/
def date_start (s : String) : Bool :=
  match s.data with
  | a :: b :: '.' :: c :: d :: '.' :: e :: f :: rest =>
    a.isDigit && b.isDigit && c.isDigit && d.isDigit && e.isDigit && f.isDigit &&
      (match rest with
       | [] => true
       | g :: _ => !isWordC g)
  | _ => false

def trimRightL (l : List Char) : List Char := (l.reverse.dropWhile wsC).reverse

/-- Match of `TX_RE`
(`^(?P<date>\d{2}\.\d{2}\.\d{2})\s+(?P<desc>.+?)\s+(?P<amt>[0-9,]+\.\d{2})(?P<cr>CR)?\s*$`).
The lazy description together with the end anchor forces the amount to be
the final whitespace-separated token; the captured description is the
region between the date and the amount with its surrounding whitespace, so
after the script's `.strip()` it is that region trimmed.  A match needs at
least one whitespace character on each side of a nonempty description. -/
def tx_match (s : String) : Option (String × String × String × Bool) :=
  match s.data with
  | a :: b :: '.' :: c :: d :: '.' :: e :: f :: rest =>
    if a.isDigit && b.isDigit && c.isDigit && d.isDigit && e.isDigit && f.isDigit then
      let raw := String.mk [a, b, '.', c, d, '.', e, f]
      let t0 := trimRightL rest
      let (cr, t1) :=
        if ['C', 'R'].isSuffixOf t0 then (true, t0.dropLast.dropLast) else (false, t0)
      match t1.reverse with
      | x2 :: x1 :: '.' :: rr =>
        if x1.isDigit && x2.isDigit then
          let runRev := rr.takeWhile (fun ch => ch.isDigit || ch = ',')
          let restRev := rr.dropWhile (fun ch => ch.isDigit || ch = ',')
          if runRev ≠ [] then
            let amt := String.mk (runRev.reverse ++ '.' :: [x1, x2])
            let mid := restRev.reverse
            match mid.head?, mid.getLast? with
            | some h, some w =>
              if wsC h && wsC w && 3 ≤ mid.length then
                some (raw, String.mk (trimList mid), amt, cr)
              else none
            | _, _ => none
          else none
        else none
      | _ => none
    else none
  | _ => none

/-- Month abbreviations as `strftime("%b")` produces them. -/
def monthAbbrev : Nat → String
  | 1 => "Jan" | 2 => "Feb" | 3 => "Mar" | 4 => "Apr" | 5 => "May" | 6 => "Jun"
  | 7 => "Jul" | 8 => "Aug" | 9 => "Sep" | 10 => "Oct" | 11 => "Nov" | 12 => "Dec"
  | _ => ""

def isLeap (y : Nat) : Bool := y % 4 = 0 && (y % 100 ≠ 0 || y % 400 = 0)

def daysInMonth (m y : Nat) : Nat :=
  if m = 2 then (if isLeap y then 29 else 28)
  else if m = 4 || m = 6 || m = 9 || m = 11 then 30
  else 31

def digit2 (a b : Char) : Nat := (a.toNat - 48) * 10 + (b.toNat - 48)

/-- `format_date_and_year` via `strptime(s, "%d.%m.%y")`; `none` models the
raised `ValueError` for calendar-invalid tokens.  `%y` applies the POSIX
pivot (00-68 → 2000s, 69-99 → 1900s). -/
def format_date_and_year (s : String) : Option (String × String) :=
  match s.data with
  | [a, b, '.', c, d, '.', e, f] =>
    if a.isDigit && b.isDigit && c.isDigit && d.isDigit && e.isDigit && f.isDigit then
      let dd := digit2 a b
      let mm := digit2 c d
      let yy := digit2 e f
      let year := if yy ≤ 68 then 2000 + yy else 1900 + yy
      if 1 ≤ mm && mm ≤ 12 && 1 ≤ dd && dd ≤ daysInMonth mm year then
        some (String.mk [a, b] ++ " " ++ upperS (monthAbbrev mm), toString year)
      else none
    else none
  | _ => none

/-- `format_amount_for_excel`: strip commas, parenthesize credits. -/
def format_amount_for_excel (amount_str : String) (credit : Bool) : String :=
  let amt := pyStrip (String.mk (amount_str.data.filter (fun c => c ≠ ',')))
  if credit then String.mk ('(' :: amt.data ++ [')']) else amt

structure Row where
  txDate : String
  year : String
  desc : String
  amt : String
deriving DecidableEq, Repr

/-- `parse_transaction_line`: on a date-normalization failure the raw date
token is kept and the year is left empty (the `except` branch). -/
def parse_transaction_line (line : String) : Option Row :=
  match tx_match (pyStrip line) with
  | none => none
  | some (raw, desc, amt, cr) =>
    let dy := (format_date_and_year raw).getD (raw, "")
    some ⟨dy.1, dy.2, desc, format_amount_for_excel amt cr⟩

/-- The standalone-`CR` retroactive fix applied to the last emitted row:
already-parenthesized amounts are left alone. -/
def cr_fix (r : Row) : Row :=
  let prev := pyStrip r.amt
  if pyStartsWith "(" prev && pyEndsWith ")" prev then r
  else { r with amt := format_amount_for_excel prev true }

def apply_standalone_cr : List Row → List Row
  | [] => []
  | [r] => [cr_fix r]
  | r :: rest => r :: apply_standalone_cr rest

/-- The driver's line loop: standalone `CR` lines patch the previous row,
date lines are parsed, and a `CR` on the immediately following line is
attached to the freshly parsed amount.  The last line (no lookahead
available) and the two-or-more case mirror the script's `i + 1 < len`
test. -/
def loop_aux : List Row → List String → List Row
  | acc, [] => acc
  | acc, [l] =>
    let line := pyStrip l
    if line = "CR" then apply_standalone_cr acc
    else if date_start line = false then acc
    else
      match parse_transaction_line line with
      | none => acc
      | some rec => acc ++ [rec]
  | acc, l :: nxt :: rest2 =>
    let line := pyStrip l
    if line = "CR" then loop_aux (apply_standalone_cr acc) (nxt :: rest2)
    else if date_start line = false then loop_aux acc (nxt :: rest2)
    else
      match parse_transaction_line line with
      | none => loop_aux acc (nxt :: rest2)
      | some rec =>
        if pyStrip nxt = "CR" then
          loop_aux (acc ++ [{ rec with amt := format_amount_for_excel rec.amt true }]) rest2
        else loop_aux (acc ++ [rec]) (nxt :: rest2)

/-- `extract_rows_from_pdf` on the joined document text. -/
def extract_rows (text : String) : List Row :=
  let segs := extract_marker_segments text
  if segs = [] then [] else loop_aux [] (clean_of segs)

end Amex

namespace OCBC

/-! Embedding of `Automate-OCBC-Credit-Statements.py` (date formatting). -/

def month_abbr (mm : String) : Option String :=
  (([("01", "Jan"), ("02", "Feb"), ("03", "Mar"), ("04", "Apr"),
     ("05", "May"), ("06", "Jun"), ("07", "Jul"), ("08", "Aug"),
     ("09", "Sep"), ("10", "Oct"), ("11", "Nov"), ("12", "Dec")] :
      List (String × String)).lookup mm)

def zfill2 (s : String) : String :=
  String.mk (List.replicate (2 - s.data.length) '0' ++ s.data)

/-- `format_tx_date`: `DD/MM[...]` to `DD Mmm`, unknown months kept as-is. -/
def format_tx_date (date_str : String) : String :=
  let s := pyStrip date_str
  let parts := splitOnC '/' s.data
  if parts.length < 2 then s
  else
    let dd := zfill2 (parts.getD 0 "")
    let mm := zfill2 (parts.getD 1 "")
    dd ++ " " ++ ((month_abbr mm).getD mm)

end OCBC

namespace SRS

/-! Embedding of `AutomateParsingSRS.py` (date conversion). -/

def month_map (k : String) : Option String :=
  (([("JAN", "Jan"), ("FEB", "Feb"), ("MAR", "Mar"), ("APR", "Apr"),
     ("MAY", "May"), ("JUN", "Jun"), ("JUL", "Jul"), ("AUG", "Aug"),
     ("SEP", "Sep"), ("OCT", "Oct"), ("NOV", "Nov"), ("DEC", "Dec")] :
      List (String × String)).lookup k)

/-- Conversion of a `DDMON` token to `DD-Mon-24`; the year is the script's
fixed year context `24`, and an unknown month key falls back to the raw
token text. -/
def date_convert (date_raw : String) : String :=
  let day := String.mk (date_raw.data.take 2)
  let key := String.mk ((date_raw.data.drop 2).take 3)
  day ++ "-" ++ ((month_map key).getD key) ++ "-24"

end SRS

namespace FS

/-! Embedding of `AutomateParsingForeignStocks.py` (section bounding). -/

def start_marker : String := "S t a t e m e n t O f A c c o u n t"

def end_marker : String := "C u s t o d y S t a t e m e n t"

def after_first (pat s : String) : String :=
  match findSubIdx pat.data s.data with
  | some i => String.mk (s.data.drop (i + pat.data.length))
  | none => s

def before_first (pat s : String) : String :=
  match findSubIdx pat.data s.data with
  | some i => String.mk (s.data.take i)
  | none => s

/-- Section bounding of the foreign-stocks script.  A missing start marker
RAISES (`raise ValueError(...)`), modelled as `Except.error`; a missing end
marker only warns and keeps the rest of the document. -/
def bound_section (all_text : String) : Except String String :=
  if containsS start_marker all_text = false then
    Except.error ("Start marker '" ++ start_marker ++ "' not found in PDF text")
  else
    let sec := after_first start_marker all_text
    if containsS end_marker sec then Except.ok (before_first end_marker sec)
    else Except.ok sec

end FS

namespace Amex

/-- Line that produces exactly one row in the driver loop: a date-prefixed
line that the field parser accepts. -/
def good_line (l : String) : Bool :=
  date_start (pyStrip l) && (parse_transaction_line (pyStrip l)).isSome

/-- Is the amount of the most recently emitted row already in the
parenthesized credit form? -/
def paren_last : List Row → Bool
  | [] => false
  | [r] => pyStartsWith "(" (pyStrip r.amt) && pyEndsWith ")" (pyStrip r.amt)
  | _ :: rest => paren_last rest

end Amex

/-- Two-page AMEX-style document in which the section header repeats. -/
def amexTwoPageDoc : String :=
  "HEADER\nDetails Foreign Spending Amount S$\n19.01.21 ALPHA 25.35\nDetails Foreign Spending Amount S$\n20.01.21 BETA 10.00\nTotal of New Transactions"

/-- First segment the bounder extracts from `amexTwoPageDoc`. -/
def amexSeg1 : String := "\n19.01.21 ALPHA 25.35\n"

/-- Second segment the bounder extracts from `amexTwoPageDoc`. -/
def amexSeg2 : String := "\n20.01.21 BETA 10.00\n"

/-! ## Helper lemmas -/

theorem cont_keep_cons_skip (c : String) (t : List String)
    (h : UOB.cont_skip (pyStrip c) = true) :
    UOB.cont_keep (c :: t) = UOB.cont_keep t := by
  simp [UOB.cont_keep, h]

theorem cont_keep_cons_keep (c : String) (t : List String)
    (h : UOB.cont_skip (pyStrip c) = false) :
    UOB.cont_keep (c :: t) = pyStrip c :: UOB.cont_keep t := by
  simp [UOB.cont_keep, h]

theorem cont_fold_after_amount (a : String) :
    ∀ (ls ds : List String),
      List.foldl UOB.cont_step (some a, ds) ls = (some a, ds ++ UOB.cont_keep ls) := by
  intro ls
  induction ls with
  | nil => intro ds; simp [UOB.cont_keep]
  | cons c t ih =>
    intro ds
    by_cases h : UOB.cont_skip (pyStrip c) = true
    · have hstep : UOB.cont_step (some a, ds) c = (some a, ds) := by
        simp [UOB.cont_step, h]
      simp only [List.foldl_cons, hstep, ih, cont_keep_cons_skip c t h]
    · have hb : UOB.cont_skip (pyStrip c) = false := by
        simpa using h
      have hstep : UOB.cont_step (some a, ds) c = (some a, ds ++ [pyStrip c]) := by
        simp [UOB.cont_step, hb]
      simp only [List.foldl_cons, hstep, ih, cont_keep_cons_keep c t hb]
      simp

theorem cont_fold_no_amount :
    ∀ (ls : List String),
      (∀ l ∈ ls, UOB.cont_skip (pyStrip l) = true ∨ UOB.amt_only (pyStrip l) = none) →
      ∀ ds, List.foldl UOB.cont_step (none, ds) ls = (none, ds ++ UOB.cont_keep ls) := by
  intro ls
  induction ls with
  | nil => intro _ ds; simp [UOB.cont_keep]
  | cons c t ih =>
    intro h ds
    have hc := h c (List.mem_cons_self c t)
    have ht : ∀ l ∈ t, UOB.cont_skip (pyStrip l) = true ∨ UOB.amt_only (pyStrip l) = none :=
      fun l hl => h l (List.mem_cons_of_mem c hl)
    by_cases hskip : UOB.cont_skip (pyStrip c) = true
    · have hstep : UOB.cont_step (none, ds) c = (none, ds) := by
        simp [UOB.cont_step, hskip]
      simp only [List.foldl_cons, hstep, ih ht, cont_keep_cons_skip c t hskip]
    · have hb : UOB.cont_skip (pyStrip c) = false := by simpa using hskip
      have hao : UOB.amt_only (pyStrip c) = none := by
        rcases hc with hc | hc
        · exact absurd hc hskip
        · exact hc
      have hstep : UOB.cont_step (none, ds) c = (none, ds ++ [pyStrip c]) := by
        simp [UOB.cont_step, hb, hao]
      simp only [List.foldl_cons, hstep, ih ht, cont_keep_cons_keep c t hb]
      simp

theorem cont_fold_first_amount (n : String) (suf : Option String) :
    ∀ (pre : List String),
      (∀ l ∈ pre, UOB.cont_skip (pyStrip l) = true ∨ UOB.amt_only (pyStrip l) = none) →
      ∀ (al : String), UOB.cont_skip (pyStrip al) = false →
        UOB.amt_only (pyStrip al) = some (n, suf) →
      ∀ (post ds : List String),
        List.foldl UOB.cont_step (none, ds) (pre ++ al :: post)
          = (some (UOB.normalize_amount n suf),
             ds ++ UOB.cont_keep pre ++ UOB.cont_keep post) := by
  intro pre
  induction pre with
  | nil =>
    intro _ al hal1 hal2 post ds
    have hstep : UOB.cont_step (none, ds) al = (some (UOB.normalize_amount n suf), ds) := by
      simp [UOB.cont_step, hal1, hal2]
    simp only [List.nil_append, List.foldl_cons, hstep,
      cont_fold_after_amount, UOB.cont_keep, List.map_nil, List.filter_nil,
      List.append_nil]
  | cons p pre' ih =>
    intro h al hal1 hal2 post ds
    have hp := h p (List.mem_cons_self p pre')
    have hpre' : ∀ l ∈ pre', UOB.cont_skip (pyStrip l) = true ∨ UOB.amt_only (pyStrip l) = none :=
      fun l hl => h l (List.mem_cons_of_mem p hl)
    by_cases hskip : UOB.cont_skip (pyStrip p) = true
    · have hstep : UOB.cont_step (none, ds) p = (none, ds) := by
        simp [UOB.cont_step, hskip]
      simp only [List.cons_append, List.foldl_cons, hstep,
        ih hpre' al hal1 hal2 post ds, cont_keep_cons_skip p pre' hskip]
    · have hb : UOB.cont_skip (pyStrip p) = false := by simpa using hskip
      have hao : UOB.amt_only (pyStrip p) = none := by
        rcases hp with hp | hp
        · exact absurd hp hskip
        · exact hp
      have hstep : UOB.cont_step (none, ds) p = (none, ds ++ [pyStrip p]) := by
        simp [UOB.cont_step, hb, hao]
      simp only [List.cons_append, List.foldl_cons, hstep,
        ih hpre' al hal1 hal2 post (ds ++ [pyStrip p]),
        cont_keep_cons_keep p pre' hb]
      simp

theorem first_frag_none (x : String)
    (h : (UOB.first_fragment_step x).1 = none) :
    UOB.first_fragment_step x = (none, [x]) := by
  unfold UOB.first_fragment_step at h ⊢
  cases heq : UOB.amt_at_end x with
  | none => simp [heq]
  | some v =>
    obtain ⟨i, num, suf⟩ := v
    simp only [heq] at h ⊢
    by_cases hb : pyStrip (String.mk (x.data.take i)) ≠ ""
    · simp [hb] at h
    · simp [hb]

/-! ## Claims -/

/-- C1 (corrected): in the UOB driver, a document text in which the
tolerant start-marker regex finds no match yields `none` from the section
bounder and an empty row list from the driver; no exception is involved
(contrast `C1_counterexample` for the foreign-stocks script). -/
theorem C1_uob_missing_marker_yields_no_rows (text : String)
    (h : UOB.start_search text = none) :
    UOB.extract_section_text text = none ∧ UOB.extract_rows_from_text text = [] := by
  have hs : UOB.extract_section_text text = none := by
    simp [UOB.extract_section_text, h]
  exact ⟨hs, by simp [UOB.extract_rows_from_text, hs]⟩

/-- C1 witness at a concrete markerless document. -/
theorem C1_witness :
    UOB.extract_section_text "monthly summary with no table header" = none
    ∧ UOB.extract_rows_from_text "monthly summary with no table header" = [] :=
  C1_uob_missing_marker_yields_no_rows "monthly summary with no table header" (by decide)

/-- C1 counterexample: the foreign-stocks script RAISES (`ValueError`) on a
document without its start marker, instead of producing zero rows without
raising; the claim is false for that parser. -/
theorem C1_counterexample :
    containsS FS.start_marker "just a custody page" = false
    ∧ FS.bound_section "just a custody page"
        = Except.error "Start marker 'S t a t e m e n t O f A c c o u n t' not found in PDF text" := by
  constructor
  · decide
  · rfl

/-- C2 (corrected, amended part): the effective section bounder — the
second, shadowing definition of `extract_section_text` — reports the start
marker missing as soon as the tolerant regex fails, performing no
whitespace-compacted fallback scan. -/
theorem C2_effective_bounder_skips_without_fallback (text : String)
    (h : UOB.start_search text = none) :
    UOB.extract_section_text text = none := by
  simp [UOB.extract_section_text, h]

/-- C2 witness at a concrete document the compacted scan could have
matched. -/
theorem C2_witness :
    UOB.extract_section_text
      "Pos t Trans Description of Transaction Transaction Amount\nSUB TOTAL" = none :=
  C2_effective_bounder_skips_without_fallback
    "Pos t Trans Description of Transaction Transaction Amount\nSUB TOTAL" (by decide)

/-- C2 counterexample: a document on which the tolerant regex fails, the
shadowed first definition (with the compacted fallback) succeeds, yet the
effective bounder reports the marker missing — so the claimed fallback is
not reached in the program as it runs. -/
theorem C2_counterexample :
    UOB.start_search
      "Po st Trans Description of Transaction Transaction Amount\nX\nSUB TOTAL" = none
    ∧ (UOB.extract_section_text_v1
        "Po st Trans Description of Transaction Transaction Amount\nX\nSUB TOTAL").isSome = true
    ∧ UOB.extract_section_text
        "Po st Trans Description of Transaction Transaction Amount\nX\nSUB TOTAL" = none := by
  refine ⟨by decide, by decide, by decide⟩

/-- C4 (confirmed): stitching the spec's two example lines produces exactly
one finalized record with amount `"(16.84)"` and description
`"CR INTEREST"`. -/
theorem C4_stitch_example :
    UOB.uob_stitch ["07 JUN 07 JUN CR INTEREST", "16.84 CR"]
      = [⟨"07 JUN", "CR INTEREST", "(16.84)"⟩] := by decide

/-- C6 (confirmed): amount normalization strips thousands separators and
parenthesizes credits, leaving plain non-credit amounts unchanged, in both
the UOB and the AMEX normalizers. -/
theorem C6_amount_normalization :
    UOB.normalize_amount "1,234.56" (some "CR") = "(1234.56)"
    ∧ UOB.normalize_amount "7.00" none = "7.00"
    ∧ Amex.format_amount_for_excel "1,234.56" true = "(1234.56)"
    ∧ Amex.format_amount_for_excel "7.00" false = "7.00" := by
  refine ⟨by decide, by decide, by decide, by decide⟩

/-- C7 (confirmed): the three date-normalization examples — SRS `"13MAY"`
with its fixed year context 24, AMEX `"25.10.20"`, OCBC `"02/04"`. -/
theorem C7_date_normalization :
    SRS.date_convert "13MAY" = "13-May-24"
    ∧ Amex.format_date_and_year "25.10.20" = some ("25 OCT", "2020")
    ∧ OCBC.format_tx_date "02/04" = "02 Apr" := by
  refine ⟨by decide, by decide, by decide⟩

/-- C3 (confirmed): a continuation line that fully matches the bare-amount
pattern while no amount is assigned becomes the record's amount (first such
line wins — the non-matching lines before it go to the description), and
once an amount is assigned every surviving later line, amount-looking or
not, is appended to the description with the amount left unchanged. -/
theorem C3_amount_tiebreak_first_wins
    (p t first al : String) (pre post : List String) (n : String) (suf : Option String)
    (hfirst : (UOB.first_fragment_step (pyStrip first)).1 = none)
    (hpre : ∀ l ∈ pre, UOB.cont_skip (pyStrip l) = true ∨ UOB.amt_only (pyStrip l) = none)
    (hal1 : UOB.cont_skip (pyStrip al) = false)
    (hal2 : UOB.amt_only (pyStrip al) = some (n, suf)) :
    (UOB.parse_tx_from_buffer p t (first :: (pre ++ al :: post))).map UOB.UobTx.amount
      = some (UOB.normalize_amount n suf)
    ∧ ∀ (a : String) (ds ls : List String),
        List.foldl UOB.cont_step (some a, ds) ls = (some a, ds ++ UOB.cont_keep ls) := by
  refine ⟨?_, fun a ds ls => cont_fold_after_amount a ls ds⟩
  have h0 := first_frag_none (pyStrip first) hfirst
  have hfold := cont_fold_first_amount n suf pre hpre al hal1 hal2 post [pyStrip first]
  simp only [UOB.parse_tx_from_buffer, h0, hfold]
  rfl

/-- C3 witness: a reference-number line precedes the amount-only line, and
an amount-looking line follows it. -/
theorem C3_witness :
    (UOB.parse_tx_from_buffer "07 JUN" "07 JUN"
        ("CR INTEREST" :: (["REF NO 123"] ++ "16.84 CR" :: ["9.99"]))).map UOB.UobTx.amount
      = some (UOB.normalize_amount "16.84" (some "CR"))
    ∧ ∀ (a : String) (ds ls : List String),
        List.foldl UOB.cont_step (some a, ds) ls = (some a, ds ++ UOB.cont_keep ls) :=
  C3_amount_tiebreak_first_wins "07 JUN" "07 JUN" "CR INTEREST" "16.84 CR"
    ["REF NO 123"] ["9.99"] "16.84" (some "CR")
    (by decide) (by decide) (by decide) (by decide)

/-- C5 (corrected): a structurally matching line whose date token fails
calendar normalization is NOT dropped — the AMEX parser emits the row with
the raw date token and an empty year. -/
theorem C5_unparsable_date_row_still_emitted (s raw desc amt : String) (cr : Bool)
    (hm : Amex.tx_match (pyStrip s) = some (raw, desc, amt, cr))
    (hd : Amex.format_date_and_year raw = none) :
    Amex.parse_transaction_line s
      = some ⟨raw, "", desc, Amex.format_amount_for_excel amt cr⟩ := by
  simp [Amex.parse_transaction_line, hm, hd]

/-- C5 witness at a concrete line with month 13. -/
theorem C5_witness :
    Amex.parse_transaction_line "31.13.21 ANNUAL FEE 70.00"
      = some ⟨"31.13.21", "", "ANNUAL FEE", Amex.format_amount_for_excel "70.00" false⟩ :=
  C5_unparsable_date_row_still_emitted "31.13.21 ANNUAL FEE 70.00"
    "31.13.21" "ANNUAL FEE" "70.00" false (by decide) (by decide)

/-- C5 counterexample: the record with the unparsable date `31.13.21` is
emitted as a row carrying the raw token and an empty year, not dropped as
the claim states. -/
theorem C5_counterexample :
    Amex.parse_transaction_line "31.13.21 FOO 5.00"
      = some ⟨"31.13.21", "", "FOO", "5.00"⟩ := by decide

/-- C8 (confirmed): when the first fragment yields no trailing amount and
no surviving continuation line is a bare amount, finalization returns
`none`, and the driver's flush leaves the emitted rows unchanged, so the
candidate record is silently discarded and stitching continues. -/
theorem C8_no_amount_discards_record (p t first : String) (ls : List String)
    (h1 : (UOB.first_fragment_step (pyStrip first)).1 = none)
    (h2 : ∀ l ∈ ls, UOB.cont_skip (pyStrip l) = true ∨ UOB.amt_only (pyStrip l) = none) :
    UOB.parse_tx_from_buffer p t (first :: ls) = none
    ∧ ∀ rows : List UOB.UobTx,
        UOB.flush_state ⟨rows, some (p, t, first :: ls)⟩ = rows := by
  have h0 := first_frag_none (pyStrip first) h1
  have hfold := cont_fold_no_amount ls h2 [pyStrip first]
  have hparse : UOB.parse_tx_from_buffer p t (first :: ls) = none := by
    simp only [UOB.parse_tx_from_buffer, h0, hfold]
  refine ⟨hparse, fun rows => ?_⟩
  simp only [UOB.flush_state]
  split
  · rw [hparse]
  · rfl

/-- C8 witness: a buffer with no amount anywhere. -/
theorem C8_witness :
    UOB.parse_tx_from_buffer "01 JAN" "01 JAN" ("HELLO" :: ["WORLD"]) = none
    ∧ UOB.flush_state ⟨[], some ("01 JAN", "01 JAN", "HELLO" :: ["WORLD"])⟩ = [] :=
  ⟨(C8_no_amount_discards_record "01 JAN" "01 JAN" "HELLO" ["WORLD"]
      (by decide) (by decide)).1,
   (C8_no_amount_discards_record "01 JAN" "01 JAN" "HELLO" ["WORLD"]
      (by decide) (by decide)).2 []⟩

/-! ## Helper lemmas for the AMEX driver loop -/

theorem apply_cr_length : ∀ rs : List Amex.Row,
    (Amex.apply_standalone_cr rs).length = rs.length := by
  intro rs
  induction rs with
  | nil => rfl
  | cons r rest ih =>
    cases rest with
    | nil => rfl
    | cons x xs =>
      have h1 : Amex.apply_standalone_cr (r :: x :: xs)
          = r :: Amex.apply_standalone_cr (x :: xs) := rfl
      rw [h1]
      simp [ih]

theorem trimList_paren (m : List Char) :
    trimList ('(' :: (m ++ [')'])) = '(' :: (m ++ [')']) := by
  have h1 : wsC '(' = false := rfl
  have h2 : wsC ')' = false := rfl
  simp [trimList, List.dropWhile_cons, h1, h2, List.reverse_append,
    List.reverse_cons, List.reverse_reverse]

theorem pyStrip_paren (m : List Char) :
    pyStrip (String.mk ('(' :: (m ++ [')']))) = String.mk ('(' :: (m ++ [')'])) := by
  simp [pyStrip, trimList_paren]

theorem starts_paren (m : List Char) :
    pyStartsWith "(" (String.mk ('(' :: m)) = true := by
  simp [pyStartsWith, List.isPrefixOf]

theorem ends_paren (m : List Char) :
    pyEndsWith ")" (String.mk (m ++ [')'])) = true := by
  simp [pyEndsWith, List.isSuffixOf, List.reverse_append, List.isPrefixOf]

theorem fmt_credit_fixed (p : String) :
    pyStrip (Amex.format_amount_for_excel p true) = Amex.format_amount_for_excel p true
    ∧ pyStartsWith "(" (Amex.format_amount_for_excel p true) = true
    ∧ pyEndsWith ")" (Amex.format_amount_for_excel p true) = true := by
  have hshape : Amex.format_amount_for_excel p true
      = String.mk ('(' ::
          ((pyStrip (String.mk (p.data.filter (fun c => c ≠ ',')))).data ++ [')'])) := rfl
  rw [hshape]
  exact ⟨pyStrip_paren _, starts_paren _,
    ends_paren ('(' :: (pyStrip (String.mk (p.data.filter (fun c => c ≠ ',')))).data)⟩

theorem cr_fix_idem (r : Amex.Row) : Amex.cr_fix (Amex.cr_fix r) = Amex.cr_fix r := by
  by_cases h : (pyStartsWith "(" (pyStrip r.amt) && pyEndsWith ")" (pyStrip r.amt)) = true
  · have e : Amex.cr_fix r = r := by simp [Amex.cr_fix, h]
    rw [e, e]
  · have e : Amex.cr_fix r
        = { r with amt := Amex.format_amount_for_excel (pyStrip r.amt) true } := by
      simp [Amex.cr_fix, h]
    rw [e]
    obtain ⟨h1, h2, h3⟩ := fmt_credit_fixed (pyStrip r.amt)
    simp [Amex.cr_fix, h1, h2, h3]

theorem apply_cr_idem : ∀ rs : List Amex.Row,
    Amex.apply_standalone_cr (Amex.apply_standalone_cr rs) = Amex.apply_standalone_cr rs := by
  intro rs
  induction rs with
  | nil => rfl
  | cons r rest ih =>
    cases rest with
    | nil => simp [Amex.apply_standalone_cr, cr_fix_idem]
    | cons x xs =>
      have h1 : Amex.apply_standalone_cr (r :: x :: xs)
          = r :: Amex.apply_standalone_cr (x :: xs) := rfl
      rw [h1]
      cases he : Amex.apply_standalone_cr (x :: xs) with
      | nil =>
        exfalso
        have hl := apply_cr_length (x :: xs)
        rw [he] at hl
        simp at hl
      | cons y ys =>
        have h2 : Amex.apply_standalone_cr (r :: y :: ys)
            = r :: Amex.apply_standalone_cr (y :: ys) := rfl
        rw [h2, ← he, ih]

theorem apply_cr_paren : ∀ rs : List Amex.Row,
    Amex.paren_last rs = true → Amex.apply_standalone_cr rs = rs := by
  intro rs
  induction rs with
  | nil => intro _; rfl
  | cons r rest ih =>
    intro h
    cases rest with
    | nil =>
      have hc : (pyStartsWith "(" (pyStrip r.amt) && pyEndsWith ")" (pyStrip r.amt)) = true := h
      simp [Amex.apply_standalone_cr, Amex.cr_fix, hc]
    | cons x xs =>
      have hrest : Amex.paren_last (x :: xs) = true := h
      have h1 : Amex.apply_standalone_cr (r :: x :: xs)
          = r :: Amex.apply_standalone_cr (x :: xs) := rfl
      rw [h1, ih hrest]

theorem date_start_cr : Amex.date_start "CR" = false := rfl

theorem good_line_false_cr (l : String) (h : pyStrip l = "CR") :
    Amex.good_line l = false := by
  simp [Amex.good_line, h, date_start_cr]

theorem loop_aux_length : ∀ (n : Nat) (ls : List String) (acc : List Amex.Row),
    ls.length ≤ n →
    (Amex.loop_aux acc ls).length = acc.length + ls.countP Amex.good_line := by
  intro n
  induction n with
  | zero =>
    intro ls acc h
    have he : ls = [] := List.length_eq_zero.mp (Nat.le_zero.mp h)
    subst he
    simp [Amex.loop_aux]
  | succ n ih =>
    intro ls acc h
    cases ls with
    | nil => simp [Amex.loop_aux]
    | cons l rest =>
      cases rest with
      | nil =>
        by_cases h1 : pyStrip l = "CR"
        · simp [Amex.loop_aux, h1, apply_cr_length, List.countP_cons,
            good_line_false_cr l h1]
        · by_cases h2 : Amex.date_start (pyStrip l) = false
          · have hg : Amex.good_line l = false := by simp [Amex.good_line, h2]
            simp [Amex.loop_aux, h1, h2, List.countP_cons, hg]
          · have h2t : Amex.date_start (pyStrip l) = true := by simpa using h2
            cases hp : Amex.parse_transaction_line (pyStrip l) with
            | none =>
              have hg : Amex.good_line l = false := by simp [Amex.good_line, hp]
              simp [Amex.loop_aux, h1, h2t, hp, List.countP_cons, hg]
            | some rec =>
              have hg : Amex.good_line l = true := by simp [Amex.good_line, h2t, hp]
              simp [Amex.loop_aux, h1, h2t, hp, List.countP_cons, hg]
      | cons nxt rest2 =>
        have hr : (nxt :: rest2).length ≤ n := by
          simp only [List.length_cons] at h ⊢
          omega
        have hr2 : rest2.length ≤ n := by
          simp only [List.length_cons] at h
          omega
        by_cases h1 : pyStrip l = "CR"
        · have e : Amex.loop_aux acc (l :: nxt :: rest2)
              = Amex.loop_aux (Amex.apply_standalone_cr acc) (nxt :: rest2) := by
            simp [Amex.loop_aux, h1]
          rw [e, ih (nxt :: rest2) _ hr, apply_cr_length]
          simp [List.countP_cons, good_line_false_cr l h1]
        · by_cases h2 : Amex.date_start (pyStrip l) = false
          · have e : Amex.loop_aux acc (l :: nxt :: rest2)
                = Amex.loop_aux acc (nxt :: rest2) := by
              simp [Amex.loop_aux, h1, h2]
            have hg : Amex.good_line l = false := by simp [Amex.good_line, h2]
            rw [e, ih (nxt :: rest2) _ hr]
            simp [List.countP_cons, hg]
          · have h2t : Amex.date_start (pyStrip l) = true := by simpa using h2
            cases hp : Amex.parse_transaction_line (pyStrip l) with
            | none =>
              have e : Amex.loop_aux acc (l :: nxt :: rest2)
                  = Amex.loop_aux acc (nxt :: rest2) := by
                simp [Amex.loop_aux, h1, h2t, hp]
              have hg : Amex.good_line l = false := by simp [Amex.good_line, hp]
              rw [e, ih (nxt :: rest2) _ hr]
              simp [List.countP_cons, hg]
            | some rec =>
              have hg : Amex.good_line l = true := by simp [Amex.good_line, h2t, hp]
              by_cases h4 : pyStrip nxt = "CR"
              · have e : Amex.loop_aux acc (l :: nxt :: rest2)
                    = Amex.loop_aux
                        (acc ++ [{ rec with amt := Amex.format_amount_for_excel rec.amt true }])
                        rest2 := by
                  simp [Amex.loop_aux, h1, h2t, hp, h4]
                rw [e, ih rest2 _ hr2]
                simp [List.countP_cons, hg, good_line_false_cr nxt h4]
                omega
              · have e : Amex.loop_aux acc (l :: nxt :: rest2)
                    = Amex.loop_aux (acc ++ [rec]) (nxt :: rest2) := by
                  simp [Amex.loop_aux, h1, h2t, hp, h4]
                rw [e, ih (nxt :: rest2) _ hr]
                simp [List.countP_cons, hg]
                omega

theorem loop_len_eq (ls : List String) :
    (Amex.loop_aux [] ls).length = ls.countP Amex.good_line := by
  have h := loop_aux_length ls.length ls [] le_rfl
  simpa using h

theorem clean_of_cons (s : String) (segs : List String) :
    Amex.clean_of (s :: segs) = Amex.clean_of [s] ++ Amex.clean_of segs := by
  simp [Amex.clean_of, Amex.seg_lines, List.filter_append]

theorem rowcount_sum : ∀ segs : List String,
    (Amex.loop_aux [] (Amex.clean_of segs)).length
      = (segs.map (fun s => (Amex.loop_aux [] (Amex.clean_of [s])).length)).sum := by
  intro segs
  induction segs with
  | nil => simp [Amex.clean_of, Amex.seg_lines, Amex.loop_aux]
  | cons s t ih =>
    rw [loop_len_eq, clean_of_cons, List.countP_append,
      ← loop_len_eq (Amex.clean_of [s]), ← loop_len_eq (Amex.clean_of t), ih]
    simp [List.map_cons, List.sum_cons]

set_option maxRecDepth 8192 in
/-- C9 (corrected, amended part): on the two-page document the bounder
returns exactly one segment per header occurrence, each spanning to the
next start-or-end position, and the driver's row count equals the sum of
the rows stitchable from each segment independently; the row-count
additivity holds for every segment list.  (See `C9_counterexample` for a
final header occurrence with no following start or end marker, which
yields no segment.) -/
theorem C9_segments_and_rowcount :
    (Amex.start_occurrences amexTwoPageDoc = 2
      ∧ Amex.extract_marker_segments amexTwoPageDoc = [amexSeg1, amexSeg2]
      ∧ (Amex.extract_rows amexTwoPageDoc).length
          = (Amex.loop_aux [] (Amex.clean_of [amexSeg1])).length
            + (Amex.loop_aux [] (Amex.clean_of [amexSeg2])).length)
    ∧ ∀ segs : List String,
        (Amex.loop_aux [] (Amex.clean_of segs)).length
          = (segs.map (fun s => (Amex.loop_aux [] (Amex.clean_of [s])).length)).sum :=
  ⟨⟨by decide, by decide, by decide⟩, rowcount_sum⟩

/-- C9 counterexample: a document whose start marker occurs once but is
never followed by another start marker or the end marker yields zero
segments, not one — the claim's "n occurrences give n segments" fails. -/
theorem C9_counterexample :
    Amex.start_occurrences "Details Foreign Spending Amount S$\n19.01.21 XTRA 25.35" = 1
    ∧ Amex.extract_marker_segments "Details Foreign Spending Amount S$\n19.01.21 XTRA 25.35"
        = [] := by
  refine ⟨by decide, by decide⟩

/-- C10 (confirmed): the standalone-`CR` retroactive conversion never adds
or removes rows, is idempotent, and leaves an already-parenthesized last
amount unchanged. -/
theorem C10_standalone_cr_idempotent (rows : List Amex.Row) :
    (Amex.apply_standalone_cr rows).length = rows.length
    ∧ Amex.apply_standalone_cr (Amex.apply_standalone_cr rows)
        = Amex.apply_standalone_cr rows
    ∧ (Amex.paren_last rows = true → Amex.apply_standalone_cr rows = rows) :=
  ⟨apply_cr_length rows, apply_cr_idem rows, apply_cr_paren rows⟩

/-- C10 witness: a single emitted row whose amount is already
parenthesized. -/
theorem C10_witness :
    (Amex.apply_standalone_cr [⟨"19 JAN", "2021", "REFUND", "(5.00)"⟩]).length = 1
    ∧ Amex.apply_standalone_cr
        (Amex.apply_standalone_cr [⟨"19 JAN", "2021", "REFUND", "(5.00)"⟩])
        = Amex.apply_standalone_cr [⟨"19 JAN", "2021", "REFUND", "(5.00)"⟩]
    ∧ Amex.apply_standalone_cr [⟨"19 JAN", "2021", "REFUND", "(5.00)"⟩]
        = [⟨"19 JAN", "2021", "REFUND", "(5.00)"⟩] :=
  have h := C10_standalone_cr_idempotent [⟨"19 JAN", "2021", "REFUND", "(5.00)"⟩]
  ⟨h.1, h.2.1, h.2.2 (by decide)⟩
